import Mathlib

/-!
Verification development for the sn-server repository core.

The first part embeds the per-user revision migrator
(`TransitionRevisionsFromPrimaryToSecondaryDatabaseForUser`, the use case that
moves a user's revisions from the secondary store into the primary store,
verifies integrity, cleans up the secondary store and publishes
`TransitionStatusUpdated` events).  Stores are modelled as lists of revisions;
every store call and every event publish is recorded in a trace of `Act`
values, and each publish records the count of the user's revisions in the
secondary store at the moment of publishing.  Exceptions that the source
catches (a catastrophic store failure during the paging loop, during the
integrity check, or during cleanup) are modelled by oracle flags in `Env`;
`insert` returning `false` (the row was not saved) is modelled by the
`insertOk` oracle.
-/

namespace SN

/-- A revision record: identifier, owner, `createdAt`/`updatedAt` timestamps in
UTC microseconds and an opaque payload.  Two revisions are identical iff all
fields are equal (`isIdenticalTo` compares all payload fields and both
timestamps, and the copies compared always agree on id and owner because they
are looked up by `(revisionId, userUuid)`). -/
structure Revision where
  id : Nat
  userUuid : Nat
  createdAt : Nat
  updatedAt : Nat
  payload : Nat
deriving DecidableEq, Repr

/-- `countByUserUuid` of a revision repository. -/
def countByUserUuid (store : List Revision) (u : Nat) : Nat :=
  (store.filter (fun r => r.userUuid == u)).length

/-- `findByUserUuid` with an offset/limit query: the user's revisions, paged. -/
def findByUserUuid (store : List Revision) (u offset limit : Nat) : List Revision :=
  (((store.filter (fun r => r.userUuid == u)).drop offset).take limit)

/-- `findOneByUuid`: look a revision up by `(revisionId, userUuid)`. -/
def findOneByUuid (store : List Revision) (id u : Nat) : Option Revision :=
  store.find? (fun r => r.id == id && r.userUuid == u)

/-- `removeOneByUuid`: delete the revision with the given id and owner. -/
def removeOneByUuid (store : List Revision) (id u : Nat) : List Revision :=
  store.filter (fun r => !(r.id == id && r.userUuid == u))

/-- `removeByUserUuid`: delete every revision of the given user. -/
def removeByUserUuid (store : List Revision) (u : Nat) : List Revision :=
  store.filter (fun r => !(r.userUuid == u))

/-- A successful `insert` appends the revision to the store. -/
def insertRevision (store : List Revision) (r : Revision) : List Revision :=
  store ++ [r]

/-- The transition statuses published by the migrator. -/
inductive TStatus where
  | inProgress
  | verified
  | failed
deriving DecidableEq, Repr, Fintype

/-- One observable step of the migrator: a store operation, a sleep, or an
event publish.  A `publish` records the count of the user's revisions in the
secondary store at the moment the event is published. -/
inductive Act where
  | countSecondary (result : Nat)
  | getPagingProgress (result : Nat)
  | getIntegrityProgress (result : Nat)
  | setPagingProgress (page : Nat)
  | setIntegrityProgress (page : Nat)
  | findSecondaryPage (offset limit : Nat)
  | findPrimary (id userUuid : Nat)
  | removePrimary (id userUuid : Nat)
  | insertPrimary (id : Nat) (didSave : Bool)
  | countPrimary (result : Nat)
  | removeSecondaryForUser (userUuid : Nat)
  | sleep (ms : Nat)
  | publish (status : TStatus) (secondaryCount : Nat)
deriving DecidableEq, Repr

/-- Result type of a use case: `Result.ok()` or `Result.fail(message)`. -/
inductive UResult where
  | ok
  | fail (msg : String)
deriving DecidableEq, Repr

/-- The environment of one `execute` call: configuration and the oracle for
the faults the source code catches.  `insertOk id` tells whether
`primaryRevisionsRepository.insert` succeeds for the revision with that id;
`migrationThrowsAtPage = some k` makes the paging loop raise a (caught)
exception when it reaches page `k`; `integrityThrows` and `cleanupThrows`
make the corresponding store calls raise a (caught) exception. -/
structure Env where
  pageSize : Nat
  secondaryRepoSet : Bool
  statusRepoSet : Bool
  uuidValid : Bool
  insertOk : Nat → Bool
  migrationThrowsAtPage : Option Nat
  integrityThrows : Bool
  cleanupThrows : Bool

/-- The mutable state visible to the migrator: both revision stores and the
two durable progress cursors of the transition status row. -/
structure St where
  primary : List Revision
  secondary : List Revision
  pagingProgress : Nat
  integrityProgress : Nat
deriving DecidableEq, Repr

/-- `Math.ceil(a / b)` on naturals (the source divides counts by the page
size, both non-negative integers). -/
def ceilDiv (a b : Nat) : Nat :=
  (a + b - 1) / b

/-- The keep-alive predicate `currentPage % Math.ceil(totalPages / 10) === 0`
of the source.  In JavaScript `x % 0` is `NaN`, which is never `=== 0`, so a
zero modulus yields `false`. -/
def jsModEqZero (a b : Nat) : Bool :=
  if b = 0 then false else a % b == 0

/-- `isAlreadyMigrated`: the user counts as already migrated exactly when the
secondary store holds none of their revisions. -/
def isAlreadyMigrated (secondary : List Revision) (u : Nat) : Bool :=
  countByUserUuid secondary u == 0

/-- One revision of the paging migration (the body of the inner `for` loop of
`migrateRevisionsForUser`): look the revision up in primary; skip if the
primary copy is newer; skip if identical; otherwise remove the primary copy,
sleep 2000 ms and insert the secondary copy; if absent from primary, insert.
A failed insert (`didSave = false`) is only logged.  Returns the actions taken
and the new primary store. -/
def migrateRevision (env : Env) (primary : List Revision) (r : Revision) :
    List Act × List Revision :=
  match findOneByUuid primary r.id r.userUuid with
  | some p =>
      if p.updatedAt > r.updatedAt then
        ([Act.findPrimary r.id r.userUuid], primary)
      else if p = r then
        ([Act.findPrimary r.id r.userUuid], primary)
      else
        let primary1 := removeOneByUuid primary p.id p.userUuid
        if env.insertOk r.id then
          ([Act.findPrimary r.id r.userUuid, Act.removePrimary p.id p.userUuid,
            Act.sleep 2000, Act.insertPrimary r.id true],
           insertRevision primary1 r)
        else
          ([Act.findPrimary r.id r.userUuid, Act.removePrimary p.id p.userUuid,
            Act.sleep 2000, Act.insertPrimary r.id false],
           primary1)
  | none =>
      if env.insertOk r.id then
        ([Act.findPrimary r.id r.userUuid, Act.insertPrimary r.id true],
         insertRevision primary r)
      else
        ([Act.findPrimary r.id r.userUuid, Act.insertPrimary r.id false],
         primary)

/-- The inner `for` loop of `migrateRevisionsForUser` over one fetched page. -/
def migrateRevisionList (env : Env) (primary : List Revision) :
    List Revision → List Act × List Revision
  | [] => ([], primary)
  | r :: rest =>
      let step := migrateRevision env primary r
      let tail := migrateRevisionList env step.2 rest
      (step.1 ++ tail.1, tail.2)

/-- The page loop of `migrateRevisionsForUser`, running `currentPage` from the
resumed page up to `totalPages` (`fuel` counts the remaining iterations).  Each
iteration publishes an `InProgress` keep-alive on every 10% boundary, persists
`pagingProgress := currentPage` before fetching, fetches the page from the
secondary store and migrates it revision by revision.  The Boolean result is
`false` when the oracle raised the catastrophic exception. -/
def migratePages (env : Env) (u totalPages : Nat) :
    Nat → Nat → St → List Act × St × Bool
  | 0, _, st => ([], st, true)
  | fuel + 1, currentPage, st =>
      if env.migrationThrowsAtPage = some currentPage then
        ([], st, false)
      else
        let keepAlive : List Act :=
          if jsModEqZero currentPage (ceilDiv totalPages 10) then
            [Act.publish TStatus.inProgress (countByUserUuid st.secondary u)]
          else []
        let st1 : St := { st with pagingProgress := currentPage }
        let offset := (currentPage - 1) * env.pageSize
        let revs := findByUserUuid st1.secondary u offset env.pageSize
        let pageStep := migrateRevisionList env st1.primary revs
        let st2 : St := { st1 with primary := pageStep.2 }
        let rest := migratePages env u totalPages fuel (currentPage + 1) st2
        (keepAlive ++
           [Act.setPagingProgress currentPage, Act.findSecondaryPage offset env.pageSize] ++
           pageStep.1 ++ rest.1,
         rest.2.1, rest.2.2)

/-- `migrateRevisionsForUser`: read the resumed page from `pagingProgress`,
count the user's secondary revisions, compute the page count and run the page
loop.  A caught exception turns into `Result.fail`. -/
def migrateRevisionsForUser (env : Env) (u : Nat) (st : St) :
    List Act × St × UResult :=
  let initialPage := st.pagingProgress
  let total := countByUserUuid st.secondary u
  let totalPages := ceilDiv total env.pageSize
  let fuel := totalPages + 1 - initialPage
  let run := migratePages env u totalPages fuel initialPage st
  ([Act.getPagingProgress initialPage, Act.countSecondary total] ++ run.1,
   run.2.1,
   if run.2.2 then UResult.ok
   else UResult.fail ("Errored when migrating revisions for user " ++ toString u))

/-- Models `JSON.stringify` of a revision: an injective rendering of all of
its fields, used in the integrity-mismatch diagnostic. -/
def revisionJson (r : Revision) : String :=
  "Revision(" ++ toString r.id ++ "," ++ toString r.userUuid ++ ","
    ++ toString r.createdAt ++ "," ++ toString r.updatedAt ++ ","
    ++ toString r.payload ++ ")"

/-- One revision of the integrity check: the revision must exist in primary;
a strictly newer primary copy is accepted; an identical copy is accepted;
anything else fails with a diagnostic carrying the JSON of both copies. -/
def integrityCheckRevision (primary : List Revision) (u : Nat) (r : Revision) :
    List Act × Option String :=
  match findOneByUuid primary r.id u with
  | none =>
      ([Act.findPrimary r.id u],
       some ("Revision " ++ toString r.id ++ " not found in primary database"))
  | some p =>
      if p.updatedAt > r.updatedAt then
        ([Act.findPrimary r.id u], none)
      else if r = p then
        ([Act.findPrimary r.id u], none)
      else
        ([Act.findPrimary r.id u],
         some ("Revision " ++ toString r.id
            ++ " is not identical in primary and secondary database. Revision in primary database: "
            ++ revisionJson p ++ ", revision in secondary database: " ++ revisionJson r))

/-- The inner loop of the integrity check over one fetched page; the first
failing revision aborts the check. -/
def integrityRevisionList (primary : List Revision) (u : Nat) :
    List Revision → List Act × Option String
  | [] => ([], none)
  | r :: rest =>
      let step := integrityCheckRevision primary u r
      match step.2 with
      | some e => (step.1, some e)
      | none =>
          let tail := integrityRevisionList primary u rest
          (step.1 ++ tail.1, tail.2)

/-- The page loop of the integrity check: persist `integrityProgress` before
fetching, fetch the page from secondary and check it revision by revision. -/
def integrityPages (env : Env) (u totalPages : Nat) :
    Nat → Nat → St → List Act × St × Option String
  | 0, _, st => ([], st, none)
  | fuel + 1, currentPage, st =>
      let st1 : St := { st with integrityProgress := currentPage }
      let offset := (currentPage - 1) * env.pageSize
      let revs := findByUserUuid st1.secondary u offset env.pageSize
      let pageStep := integrityRevisionList st1.primary u revs
      match pageStep.2 with
      | some e =>
          ([Act.setIntegrityProgress currentPage, Act.findSecondaryPage offset env.pageSize] ++
             pageStep.1, st1, some e)
      | none =>
          let rest := integrityPages env u totalPages fuel (currentPage + 1) st1
          ([Act.setIntegrityProgress currentPage, Act.findSecondaryPage offset env.pageSize] ++
             pageStep.1 ++ rest.1,
           rest.2.1, rest.2.2)

/-- `checkIntegrityBetweenPrimaryAndSecondaryDatabase`: fail immediately when
the primary store holds fewer of the user's revisions than the secondary
store; otherwise page through the secondary store from `integrityProgress` to
`⌈count(primary) / pageSize⌉` checking each revision.  A caught exception
turns into a failure. -/
def checkIntegrity (env : Env) (u : Nat) (st : St) :
    List Act × St × Option String :=
  if env.integrityThrows then
    ([], st, some "Errored when checking integrity between primary and secondary database")
  else
    let initialPage := st.integrityProgress
    let countSec := countByUserUuid st.secondary u
    let countPrim := countByUserUuid st.primary u
    let head : List Act :=
      [Act.getIntegrityProgress initialPage, Act.countSecondary countSec,
       Act.countPrimary countPrim]
    if countPrim < countSec then
      (head, st,
       some ("Total revisions count for user " ++ toString u ++ " in primary database ("
          ++ toString countPrim ++ ") does not match total revisions count in secondary database ("
          ++ toString countSec ++ ")"))
    else
      let totalPages := ceilDiv countPrim env.pageSize
      let fuel := totalPages + 1 - initialPage
      let run := integrityPages env u totalPages fuel initialPage st
      (head ++ run.1, run.2.1, run.2.2)

/-- `execute` of the per-user migrator.  Returns the trace of store
operations, sleeps and publishes, the final state of the stores and progress
cursors, and the use-case result. -/
def executeTransition (env : Env) (u : Nat) (st : St) :
    List Act × St × UResult :=
  if !env.secondaryRepoSet then
    ([], st, UResult.fail "Secondary revision repository is not set")
  else if !env.statusRepoSet then
    ([], st, UResult.fail "Transition status repository is not set")
  else if !env.uuidValid then
    ([], st, UResult.fail "Given value is not a valid uuid")
  else
    let secondaryCount := countByUserUuid st.secondary u
    if isAlreadyMigrated st.secondary u then
      ([Act.countSecondary secondaryCount, Act.publish TStatus.verified secondaryCount],
       st, UResult.ok)
    else
      let acts0 : List Act :=
        [Act.countSecondary secondaryCount, Act.publish TStatus.inProgress secondaryCount]
      let mig := migrateRevisionsForUser env u st
      match mig with
      | (mActs, st1, UResult.fail e) =>
          (acts0 ++ mActs ++ [Act.publish TStatus.failed (countByUserUuid st1.secondary u)],
           st1, UResult.fail e)
      | (mActs, st1, UResult.ok) =>
          let integ := checkIntegrity env u st1
          match integ.2.2 with
          | some e =>
              let st3 : St := { integ.2.1 with pagingProgress := 1, integrityProgress := 1 }
              (acts0 ++ mActs ++ [Act.sleep 2000] ++ integ.1 ++
                 [Act.setPagingProgress 1, Act.setIntegrityProgress 1,
                  Act.publish TStatus.failed (countByUserUuid st3.secondary u)],
               st3, UResult.fail e)
          | none =>
              if env.cleanupThrows then
                let cnt := countByUserUuid integ.2.1.secondary u
                (acts0 ++ mActs ++ [Act.sleep 2000] ++ integ.1 ++
                   [Act.removeSecondaryForUser u, Act.publish TStatus.failed cnt,
                    Act.publish TStatus.verified cnt],
                 integ.2.1, UResult.ok)
              else
                let st3 : St :=
                  { integ.2.1 with secondary := removeByUserUuid integ.2.1.secondary u }
                (acts0 ++ mActs ++ [Act.sleep 2000] ++ integ.1 ++
                   [Act.removeSecondaryForUser u,
                    Act.publish TStatus.verified (countByUserUuid st3.secondary u)],
                 st3, UResult.ok)

/-- The sequence of statuses published during a trace. -/
def pubs (t : List Act) : List TStatus :=
  t.filterMap (fun a =>
    match a with
    | Act.publish s _ => some s
    | _ => none)

/-- `eventsWellFormed l = true` iff `l` is a run of `InProgress` statuses
followed by at most one terminal (`Verified` or `Failed`) status. -/
def eventsWellFormed : List TStatus → Bool
  | [] => true
  | s :: rest =>
      if s = TStatus.inProgress then eventsWellFormed rest
      else rest = []

/-! ## Scheduler driver (`packages/auth/bin/transition.ts`)

The per-user body of `requestTransition`: read both transition statuses, skip
the user when they lack the `TransitionUser` role and both statuses are
`Verified`, and otherwise, per transition type, remove the status row and
publish a `TransitionRequested` event when the trigger condition holds. -/

/-- The two transition types handled by the scheduler. -/
inductive TransitionType where
  | items
  | revisions
deriving DecidableEq, Repr

/-- One observable step of the scheduler for one user. -/
inductive SchedAct where
  | logUserStatus
  | removeStatus (ty : TransitionType)
  | publishRequested (ty : TransitionType)
deriving DecidableEq, Repr

/-- The trigger condition of `requestTransition` for one transition type:
the stored status is absent, or `Failed`, or `InProgress` while `forceRun`
is set. -/
def shouldTrigger (status : Option TStatus) (forceRun : Bool) : Bool :=
  match status with
  | none => true
  | some s => decide (s = TStatus.failed) || (decide (s = TStatus.inProgress) && forceRun)

/-- The per-user body of the scheduler loop: the trace of actions taken for
one user, given whether the user holds the `TransitionUser` role, the stored
statuses of both transition types, and the `forceRun` flag. -/
def processUser (hasTransitionRole : Bool) (itemsStatus revisionsStatus : Option TStatus)
    (forceRun : Bool) : List SchedAct :=
  let bothVerified :=
    decide (itemsStatus = some TStatus.verified) &&
      decide (revisionsStatus = some TStatus.verified)
  if !hasTransitionRole && bothVerified then []
  else
    [SchedAct.logUserStatus] ++
      (if shouldTrigger itemsStatus forceRun then
        [SchedAct.removeStatus TransitionType.items,
         SchedAct.publishRequested TransitionType.items]
      else []) ++
      (if shouldTrigger revisionsStatus forceRun then
        [SchedAct.removeStatus TransitionType.revisions,
         SchedAct.publishRequested TransitionType.revisions]
      else [])

/-- `containsRemoveThenRequest t ty = true` iff somewhere in `t` the status
row for `ty` is removed and the `TransitionRequested` event for `ty` is
published immediately afterwards. -/
def containsRemoveThenRequest (t : List SchedAct) (ty : TransitionType) : Bool :=
  match t with
  | a :: b :: rest =>
      (decide (a = SchedAct.removeStatus ty) && decide (b = SchedAct.publishRequested ty)) ||
        containsRemoveThenRequest (b :: rest) ty
  | _ => false

/-! ## Sync item updater (`UpdateExistingItem`)

Only the unit tests of `UpdateExistingItem` are part of the sampled sources;
the use case itself is modelled from the specification (§4.6). -/

/-- A client-supplied identifier field before parsing: absent, present but
invalid, or present and valid with its parsed value.  Modelled from the spec:
identifiers are opaque strings that either parse to a value or fail. -/
inductive RawUuid where
  | absent
  | invalid
  | valid (value : Nat)
deriving DecidableEq, Repr

/-- A created-at/updated-at pair in UTC microseconds. -/
structure ItemTimestamps where
  createdAt : Nat
  updatedAt : Nat
deriving DecidableEq, Repr

/-- Modelled from the spec: `Timestamps.create` fails on inconsistent
ordering (`updatedAt < createdAt`), per data-model invariant 2. -/
def mkTimestamps (c u : Nat) : Option ItemTimestamps :=
  if c ≤ u then some ⟨c, u⟩ else none

/-- A shared-vault association: its identity (`id`) plus its attributes. -/
structure SharedVaultAssoc where
  id : Nat
  itemUuid : Nat
  sharedVaultUuid : Nat
  lastEditedBy : Nat
  timestamps : ItemTimestamps
deriving DecidableEq, Repr

/-- A key-system association: its identity (`id`) plus its attributes. -/
structure KeySystemAssoc where
  id : Nat
  itemUuid : Nat
  keySystemUuid : Nat
  timestamps : ItemTimestamps
deriving DecidableEq, Repr

/-- The server-side item state. -/
structure Item where
  id : Nat
  userUuid : Nat
  updatedWithSession : Option Nat
  content : Option String
  contentType : String
  encItemKey : Option String
  authHash : Option String
  itemsKeyId : Option String
  duplicateOf : Option Nat
  deleted : Bool
  timestamps : ItemTimestamps
  sharedVaultAssociation : Option SharedVaultAssoc
  keySystemAssociation : Option KeySystemAssoc
deriving DecidableEq, Repr

/-- The incoming client mutation for one item.  Date-string forms are
modelled from the spec as the microsecond value they parse to. -/
structure ItemHash where
  content : Option String
  contentType : String
  contentTypeValid : Bool
  encItemKey : Option String
  authHash : Option String
  itemsKeyId : Option String
  duplicateOf : RawUuid
  deleted : Bool
  createdAtTimestamp : Option Nat
  updatedAtTimestamp : Option Nat
  createdAtString : Option Nat
  updatedAtString : Option Nat
  sharedVaultUuid : RawUuid
  keySystemIdentifier : RawUuid
deriving DecidableEq, Repr

/-- The observable side effects of the item updater. -/
inductive ItemAct where
  | saveItem (item : Item)
  | publishRevisionCreation (itemId userUuid : Nat)
  | publishDuplicateSynced (itemId duplicateOfId userUuid : Nat)
deriving DecidableEq, Repr

/-- The microsecond pair the updater uses: the `created_at_timestamp` /
`updated_at_timestamp` pair when both are present, else the values parsed
from the date strings. -/
def itemMicros (hash : ItemHash) : Nat × Nat :=
  match hash.createdAtTimestamp, hash.updatedAtTimestamp with
  | some c, some u => (c, u)
  | _, _ => (hash.createdAtString.getD 0, hash.updatedAtString.getD 0)

/-- The payload-field update: deletion sets `deleted = true` and nulls
`content`, `encItemKey`, `authHash`, `itemsKeyId` and `duplicateOf`;
otherwise the opaque fields and `duplicate_of` are copied from the hash. -/
def applyHashFields (existing : Item) (hash : ItemHash) (session : Nat)
    (ts : ItemTimestamps) : Item :=
  if hash.deleted then
    { existing with
      updatedWithSession := some session
      content := none
      encItemKey := none
      authHash := none
      itemsKeyId := none
      duplicateOf := none
      deleted := true
      timestamps := ts }
  else
    { existing with
      updatedWithSession := some session
      content := hash.content
      contentType := hash.contentType
      encItemKey := hash.encItemKey
      authHash := hash.authHash
      itemsKeyId := hash.itemsKeyId
      duplicateOf :=
        match hash.duplicateOf with
        | RawUuid.valid d => some d
        | _ => none
      deleted := false
      timestamps := ts }

/-- The shared-vault association update: when the hash names a vault, a new
association (with identity `freshId`) replaces the current one unless the
current one already names the same vault. -/
def applySharedVault (item : Item) (hash : ItemHash) (itemId performer freshId : Nat)
    (ts : ItemTimestamps) : Item :=
  match hash.sharedVaultUuid with
  | RawUuid.valid v =>
      let newAssoc : SharedVaultAssoc :=
        { id := freshId, itemUuid := itemId, sharedVaultUuid := v,
          lastEditedBy := performer, timestamps := ts }
      match item.sharedVaultAssociation with
      | some assoc =>
          if assoc.sharedVaultUuid = v then item
          else { item with sharedVaultAssociation := some newAssoc }
      | none => { item with sharedVaultAssociation := some newAssoc }
  | _ => item

/-- The key-system association update, symmetric to `applySharedVault`. -/
def applyKeySystem (item : Item) (hash : ItemHash) (itemId freshId : Nat)
    (ts : ItemTimestamps) : Item :=
  match hash.keySystemIdentifier with
  | RawUuid.valid k =>
      let newAssoc : KeySystemAssoc :=
        { id := freshId, itemUuid := itemId, keySystemUuid := k, timestamps := ts }
      match item.keySystemAssociation with
      | some assoc =>
          if assoc.keySystemUuid = k then item
          else { item with keySystemAssociation := some newAssoc }
      | none => { item with keySystemAssociation := some newAssoc }
  | _ => item

/-- The events the updater publishes after saving: the revision-creation
request, plus the duplicate-synced event when `duplicate_of` was present. -/
def itemEvents (item : Item) (hash : ItemHash) : List ItemAct :=
  [ItemAct.saveItem item,
   ItemAct.publishRevisionCreation item.id item.userUuid] ++
    (match hash.duplicateOf with
     | RawUuid.valid d => [ItemAct.publishDuplicateSynced item.id d item.userUuid]
     | _ => [])

/-- Modelled from the spec: `UpdateExistingItem.execute` (§4.6), whose source
file is not part of the sampled sources (only its unit tests are).  Validates
the inputs in order with the first failure short-circuiting, computes the new
item state (`applyHashFields`, then the association updates with
`freshSharedVaultAssocId`/`freshKeySystemAssocId` as the identities a newly
created association would receive), persists the item and publishes the
events of `itemEvents`. -/
def updateExistingItem (existing : Item) (hash : ItemHash)
    (sessionUuid performingUserUuid : RawUuid)
    (freshSharedVaultAssocId freshKeySystemAssocId : Nat) :
    Except String (Item × List ItemAct) :=
  match sessionUuid with
  | RawUuid.valid session =>
    match performingUserUuid with
    | RawUuid.valid performer =>
      if !hash.contentTypeValid then Except.error "Invalid content type"
      else if hash.duplicateOf = RawUuid.invalid then Except.error "Invalid duplicate uuid"
      else if hash.createdAtTimestamp = none && hash.createdAtString = none then
        Except.error "Created at time is missing"
      else if hash.sharedVaultUuid = RawUuid.invalid then
        Except.error "Invalid shared vault uuid"
      else if hash.keySystemIdentifier = RawUuid.invalid then
        Except.error "Invalid key system identifier"
      else
        match mkTimestamps (itemMicros hash).1 (itemMicros hash).2 with
        | none => Except.error "Dates could not be created from timestamps"
        | some ts =>
          let item1 := applyHashFields existing hash session ts
          let item2 := applySharedVault item1 hash existing.id performer
            freshSharedVaultAssocId ts
          let item3 := applyKeySystem item2 hash existing.id freshKeySystemAssocId ts
          Except.ok (item3, itemEvents item3 hash)
    | _ => Except.error "Invalid performing user uuid"
  | _ => Except.error "Invalid session uuid"

/-! ## Sample data used by witnesses -/

/-- A fault-free environment with page size 1. -/
def envOk : Env :=
  { pageSize := 1, secondaryRepoSet := true, statusRepoSet := true, uuidValid := true,
    insertOk := fun _ => true, migrationThrowsAtPage := none, integrityThrows := false,
    cleanupThrows := false }

/-- Environment in which the secondary-store cleanup call raises. -/
def envCleanupFail : Env := { envOk with cleanupThrows := true }

/-- Environment in which every insert into the primary store reports
`didSave = false`. -/
def envInsertFail : Env := { envOk with insertOk := fun _ => false }

/-- A sample revision of user 7. -/
def rev1 : Revision := ⟨1, 7, 10, 10, 0⟩

/-- A primary-store copy of `rev1` with equal `updatedAt` but different
payload (a non-identical, not-newer conflict). -/
def rev1conflict : Revision := ⟨1, 7, 10, 10, 99⟩

/-- State: one revision of user 7 in the secondary store, empty primary. -/
def stOne : St :=
  { primary := [], secondary := [rev1], pagingProgress := 1, integrityProgress := 1 }

/-- State: no revisions at all. -/
def stEmpty : St :=
  { primary := [], secondary := [], pagingProgress := 1, integrityProgress := 1 }

/-- A sample item with no associations. -/
def itemSample : Item :=
  { id := 3, userUuid := 7, updatedWithSession := none, content := some "foobar",
    contentType := "Note", encItemKey := none, authHash := none, itemsKeyId := none,
    duplicateOf := none, deleted := false, timestamps := ⟨5, 5⟩,
    sharedVaultAssociation := none, keySystemAssociation := none }

/-- A sample incoming hash with both microsecond timestamps present. -/
def hashSample : ItemHash :=
  { content := some "asdqwe1", contentType := "Note", contentTypeValid := true,
    encItemKey := some "qweqwe1", authHash := some "auth", itemsKeyId := some "asdasd1",
    duplicateOf := RawUuid.absent, deleted := false, createdAtTimestamp := some 5,
    updatedAtTimestamp := some 6, createdAtString := none, updatedAtString := none,
    sharedVaultUuid := RawUuid.absent, keySystemIdentifier := RawUuid.absent }

/-- Sample deleted-item hash: deletion with `duplicate_of` present. -/
def hashDeleted : ItemHash :=
  { hashSample with deleted := true, duplicateOf := RawUuid.valid 9 }

/-- The item state resulting from applying `hashDeleted` to `itemSample`. -/
def itemDeleted : Item :=
  { id := 3, userUuid := 7, updatedWithSession := some 2, content := none,
    contentType := "Note", encItemKey := none, authHash := none, itemsKeyId := none,
    duplicateOf := none, deleted := true, timestamps := ⟨5, 6⟩,
    sharedVaultAssociation := none, keySystemAssociation := none }

/-- Sample hash naming shared vault 4. -/
def hashVault : ItemHash := { hashSample with sharedVaultUuid := RawUuid.valid 4 }

/-- A pre-existing association of `itemSample` with shared vault 4. -/
def assocExisting : SharedVaultAssoc := ⟨50, 3, 4, 7, ⟨1, 1⟩⟩

/-- `itemSample` already associated with shared vault 4. -/
def itemWithVault : Item := { itemSample with sharedVaultAssociation := some assocExisting }

/-- The item state resulting from applying `hashVault` to `itemWithVault`:
the association (identity 50) is preserved. -/
def itemVaultKept : Item :=
  { id := 3, userUuid := 7, updatedWithSession := some 2, content := some "asdqwe1",
    contentType := "Note", encItemKey := some "qweqwe1", authHash := some "auth",
    itemsKeyId := some "asdasd1", duplicateOf := none, deleted := false,
    timestamps := ⟨5, 6⟩, sharedVaultAssociation := some assocExisting,
    keySystemAssociation := none }

/-! ## Theorems -/

/-- C3: For every revision `r` fetched from the secondary store during the
paging migration: a strictly newer primary copy is left unchanged and nothing
is inserted; an identical primary copy leads to no action; a non-identical,
not-newer primary copy is removed, a 2000 ms sleep occurs, and the secondary
copy is inserted; a revision absent from primary is inserted. -/
theorem migration_conflict_cases (env : Env) (primary : List Revision) (r : Revision) :
    (∀ p, findOneByUuid primary r.id r.userUuid = some p →
      (p.updatedAt > r.updatedAt →
        migrateRevision env primary r = ([Act.findPrimary r.id r.userUuid], primary)) ∧
      (p = r →
        migrateRevision env primary r = ([Act.findPrimary r.id r.userUuid], primary)) ∧
      (¬ p.updatedAt > r.updatedAt → p ≠ r → env.insertOk r.id = true →
        migrateRevision env primary r =
          ([Act.findPrimary r.id r.userUuid, Act.removePrimary p.id p.userUuid,
            Act.sleep 2000, Act.insertPrimary r.id true],
           insertRevision (removeOneByUuid primary p.id p.userUuid) r))) ∧
    (findOneByUuid primary r.id r.userUuid = none → env.insertOk r.id = true →
      migrateRevision env primary r =
        ([Act.findPrimary r.id r.userUuid, Act.insertPrimary r.id true],
         insertRevision primary r)) := by
  constructor
  · intro p hp
    refine ⟨fun hnew => ?_, fun hid => ?_, fun hnew hid hins => ?_⟩
    · simp [migrateRevision, hp, hnew]
    · subst hid
      simp [migrateRevision, hp]
    · simp [migrateRevision, hp, hnew, hid, hins]
  · intro hnone hins
    simp [migrateRevision, hnone, hins]

/-- Witness for `migration_conflict_cases`: the conflict case on concrete
data (primary copy not newer, not identical, insert succeeds). -/
theorem migration_conflict_cases_witness :
    findOneByUuid [rev1conflict] rev1.id rev1.userUuid = some rev1conflict ∧
    migrateRevision envOk [rev1conflict] rev1 =
      ([Act.findPrimary 1 7, Act.removePrimary 1 7, Act.sleep 2000,
        Act.insertPrimary 1 true],
       insertRevision (removeOneByUuid [rev1conflict] 1 7) rev1) :=
  ⟨by decide,
   ((migration_conflict_cases envOk [rev1conflict] rev1).1 rev1conflict (by decide)).2.2
     (by decide) (by decide) (by decide)⟩

/-- C10 helper: the paging loop reports success whenever the fault oracle
raises no catastrophic exception, regardless of failed inserts. -/
theorem migratePages_ok_of_no_throw (env : Env) (u totalPages : Nat)
    (h : env.migrationThrowsAtPage = none) :
    ∀ fuel page st, (migratePages env u totalPages fuel page st).2.2 = true := by
  intro fuel
  induction fuel with
  | zero => intro page st; rfl
  | succ n ih =>
      intro page st
      simp only [migratePages, h]
      simp [ih]

/-- C10: a failed insert into the primary store (`didSave = false`) is only
logged: the primary store is unchanged, no error is raised, the loop
continues with the remaining revisions, and `migrateRevisionsForUser` still
returns success whenever no catastrophic exception occurs. -/
theorem insert_failure_only_logged (env : Env) (primary : List Revision)
    (r : Revision) (rest : List Revision) (u : Nat) (st : St) :
    (env.insertOk r.id = false → findOneByUuid primary r.id r.userUuid = none →
      migrateRevision env primary r =
        ([Act.findPrimary r.id r.userUuid, Act.insertPrimary r.id false], primary)) ∧
    (migrateRevisionList env primary (r :: rest)).2 =
      (migrateRevisionList env (migrateRevision env primary r).2 rest).2 ∧
    (env.migrationThrowsAtPage = none →
      (migrateRevisionsForUser env u st).2.2 = UResult.ok) := by
  refine ⟨fun hins hnone => ?_, ?_, fun hth => ?_⟩
  · simp [migrateRevision, hnone, hins]
  · simp [migrateRevisionList]
  · simp [migrateRevisionsForUser, migratePages_ok_of_no_throw env u _ hth]

/-- Witness for `insert_failure_only_logged`: a failed insert on concrete
data, and the migration of that user still reports success. -/
theorem insert_failure_only_logged_witness :
    migrateRevision envInsertFail [] rev1 =
      ([Act.findPrimary 1 7, Act.insertPrimary 1 false], []) ∧
    (migrateRevisionsForUser envInsertFail 7 stOne).2.2 = UResult.ok :=
  ⟨(insert_failure_only_logged envInsertFail [] rev1 [] 7 stOne).1 rfl (by decide),
   (insert_failure_only_logged envInsertFail [] rev1 [] 7 stOne).2.2 rfl⟩

/-- C4: the integrity verifier fails immediately when the primary store holds
fewer of the user's revisions than the secondary store; per fetched revision,
it fails when the revision is absent from primary, accepts a strictly newer
primary copy, accepts an identical copy, and otherwise fails with a
diagnostic containing the JSON of both copies. -/
theorem integrity_verifier_cases (env : Env) (u : Nat) (st : St)
    (primary : List Revision) (r : Revision) :
    (env.integrityThrows = false →
      countByUserUuid st.primary u < countByUserUuid st.secondary u →
      (checkIntegrity env u st).2.2 =
        some ("Total revisions count for user " ++ toString u ++ " in primary database ("
          ++ toString (countByUserUuid st.primary u)
          ++ ") does not match total revisions count in secondary database ("
          ++ toString (countByUserUuid st.secondary u) ++ ")")) ∧
    (findOneByUuid primary r.id u = none →
      (integrityCheckRevision primary u r).2 =
        some ("Revision " ++ toString r.id ++ " not found in primary database")) ∧
    (∀ p, findOneByUuid primary r.id u = some p →
      (p.updatedAt > r.updatedAt → (integrityCheckRevision primary u r).2 = none) ∧
      (r = p → (integrityCheckRevision primary u r).2 = none) ∧
      (¬ p.updatedAt > r.updatedAt → r ≠ p →
        ∃ a b, (integrityCheckRevision primary u r).2 =
          some (a ++ revisionJson p ++ (b ++ revisionJson r)))) := by
  refine ⟨fun hth hlt => ?_, fun hnone => ?_, fun p hp => ?_⟩
  · simp [checkIntegrity, hth, hlt]
  · simp [integrityCheckRevision, hnone]
  · refine ⟨fun hnew => ?_, fun hid => ?_, fun hnew hid => ?_⟩
    · simp [integrityCheckRevision, hp, hnew]
    · subst hid
      simp [integrityCheckRevision, hp]
    · refine ⟨"Revision " ++ toString r.id
        ++ " is not identical in primary and secondary database. Revision in primary database: ",
        ", revision in secondary database: ", ?_⟩
      simp [integrityCheckRevision, hp, hnew, hid, String.append_assoc]

/-- Witness for `integrity_verifier_cases`: the count check fails on a state
with an empty primary store, and the not-identical case produces the
two-JSON diagnostic, on concrete data. -/
theorem integrity_verifier_cases_witness :
    (checkIntegrity envOk 7 stOne).2.2 =
      some ("Total revisions count for user " ++ toString 7 ++ " in primary database ("
        ++ toString 0 ++ ") does not match total revisions count in secondary database ("
        ++ toString 1 ++ ")") ∧
    ∃ a b, (integrityCheckRevision [rev1conflict] 7 rev1).2 =
      some (a ++ revisionJson rev1conflict ++ (b ++ revisionJson rev1)) :=
  ⟨(integrity_verifier_cases envOk 7 stOne [] rev1).1 rfl (by decide),
   ((integrity_verifier_cases envOk 7 stOne [rev1conflict] rev1).2.2 rev1conflict
     (by decide)).2.2 (by decide) (by decide)⟩

/-- C5: for a user with no revisions in the secondary store, `execute`
publishes a single `Verified` event and returns success; the trace holds no
primary-store operation and no progress write, and the state is unchanged. -/
theorem short_circuit_verified (env : Env) (u : Nat) (st : St)
    (h1 : env.secondaryRepoSet = true) (h2 : env.statusRepoSet = true)
    (h3 : env.uuidValid = true) (h0 : countByUserUuid st.secondary u = 0) :
    executeTransition env u st =
      ([Act.countSecondary 0, Act.publish TStatus.verified 0], st, UResult.ok) := by
  simp [executeTransition, h1, h2, h3, isAlreadyMigrated, h0]

/-- Witness for `short_circuit_verified` on the empty state. -/
theorem short_circuit_verified_witness :
    executeTransition envOk 7 stEmpty =
      ([Act.countSecondary 0, Act.publish TStatus.verified 0], stEmpty, UResult.ok) :=
  short_circuit_verified envOk 7 stEmpty rfl rfl rfl rfl

/-- C7: per user and per transition type in the scheduler driver: the user is
skipped (empty action trace) exactly when they lack the `TransitionUser` role
and both statuses are `Verified`; a transition is requested exactly when that
type's status is absent, or `Failed`, or `InProgress` with `forceRun`; and on
each trigger the status row is removed immediately before the
`TransitionRequested` publish. -/
theorem scheduler_per_user_behavior :
    ∀ (hasRole forceRun : Bool) (itemsStatus revisionsStatus : Option TStatus),
      (processUser hasRole itemsStatus revisionsStatus forceRun = [] ↔
        (hasRole = false ∧ itemsStatus = some TStatus.verified ∧
          revisionsStatus = some TStatus.verified)) ∧
      (shouldTrigger itemsStatus forceRun =
        (decide (itemsStatus = none) || decide (itemsStatus = some TStatus.failed) ||
          (decide (itemsStatus = some TStatus.inProgress) && forceRun))) ∧
      (SchedAct.publishRequested TransitionType.items ∈
          processUser hasRole itemsStatus revisionsStatus forceRun ↔
        shouldTrigger itemsStatus forceRun = true) ∧
      (SchedAct.publishRequested TransitionType.revisions ∈
          processUser hasRole itemsStatus revisionsStatus forceRun ↔
        shouldTrigger revisionsStatus forceRun = true) ∧
      (containsRemoveThenRequest (processUser hasRole itemsStatus revisionsStatus forceRun)
          TransitionType.items = shouldTrigger itemsStatus forceRun) ∧
      (containsRemoveThenRequest (processUser hasRole itemsStatus revisionsStatus forceRun)
          TransitionType.revisions = shouldTrigger revisionsStatus forceRun) := by
  decide

/-- `applySharedVault` touches only the shared-vault association. -/
theorem applySharedVault_preserves (item : Item) (hash : ItemHash)
    (itemId performer freshId : Nat) (ts : ItemTimestamps) :
    (applySharedVault item hash itemId performer freshId ts).deleted = item.deleted ∧
    (applySharedVault item hash itemId performer freshId ts).content = item.content ∧
    (applySharedVault item hash itemId performer freshId ts).encItemKey = item.encItemKey ∧
    (applySharedVault item hash itemId performer freshId ts).authHash = item.authHash ∧
    (applySharedVault item hash itemId performer freshId ts).itemsKeyId = item.itemsKeyId ∧
    (applySharedVault item hash itemId performer freshId ts).duplicateOf = item.duplicateOf ∧
    (applySharedVault item hash itemId performer freshId ts).keySystemAssociation =
      item.keySystemAssociation := by
  unfold applySharedVault
  repeat' split
  all_goals simp

/-- `applyKeySystem` touches only the key-system association. -/
theorem applyKeySystem_preserves (item : Item) (hash : ItemHash)
    (itemId freshId : Nat) (ts : ItemTimestamps) :
    (applyKeySystem item hash itemId freshId ts).deleted = item.deleted ∧
    (applyKeySystem item hash itemId freshId ts).content = item.content ∧
    (applyKeySystem item hash itemId freshId ts).encItemKey = item.encItemKey ∧
    (applyKeySystem item hash itemId freshId ts).authHash = item.authHash ∧
    (applyKeySystem item hash itemId freshId ts).itemsKeyId = item.itemsKeyId ∧
    (applyKeySystem item hash itemId freshId ts).duplicateOf = item.duplicateOf ∧
    (applyKeySystem item hash itemId freshId ts).sharedVaultAssociation =
      item.sharedVaultAssociation := by
  unfold applyKeySystem
  repeat' split
  all_goals simp

/-- A deleting hash nulls the payload fields of `applyHashFields`. -/
theorem applyHashFields_deleted (existing : Item) (hash : ItemHash) (session : Nat)
    (ts : ItemTimestamps) (h : hash.deleted = true) :
    (applyHashFields existing hash session ts).deleted = true ∧
    (applyHashFields existing hash session ts).content = none ∧
    (applyHashFields existing hash session ts).encItemKey = none ∧
    (applyHashFields existing hash session ts).authHash = none ∧
    (applyHashFields existing hash session ts).itemsKeyId = none ∧
    (applyHashFields existing hash session ts).duplicateOf = none := by
  simp [applyHashFields, h]

/-- `applyHashFields` never touches the association fields. -/
theorem applyHashFields_assoc (existing : Item) (hash : ItemHash) (session : Nat)
    (ts : ItemTimestamps) :
    (applyHashFields existing hash session ts).sharedVaultAssociation =
      existing.sharedVaultAssociation ∧
    (applyHashFields existing hash session ts).keySystemAssociation =
      existing.keySystemAssociation := by
  unfold applyHashFields
  split
  all_goals simp

/-- A successful `updateExistingItem` returns the item built by
`applyHashFields`, `applySharedVault` and `applyKeySystem` for the computed
timestamps, and the events of `itemEvents` for it. -/
theorem updateExistingItem_ok (existing : Item) (hash : ItemHash)
    (session performer svId ksId : Nat) (item' : Item) (tr : List ItemAct)
    (hok : updateExistingItem existing hash (RawUuid.valid session)
      (RawUuid.valid performer) svId ksId = Except.ok (item', tr)) :
    ∃ ts, mkTimestamps (itemMicros hash).1 (itemMicros hash).2 = some ts ∧
      item' = applyKeySystem
        (applySharedVault (applyHashFields existing hash session ts) hash existing.id
          performer svId ts) hash existing.id ksId ts ∧
      tr = itemEvents item' hash := by
  simp only [updateExistingItem] at hok
  repeat' split at hok
  any_goals exact Except.noConfusion hok
  next ts hts =>
    simp only [Except.ok.injEq, Prod.mk.injEq] at hok
    obtain ⟨h1, h2⟩ := hok
    exact ⟨ts, hts, h1.symm, by rw [h2.symm, h1]⟩

/-- C8: a successful update from a hash with `deleted = true` leaves the item
deleted with `content`, `encItemKey`, `authHash`, `itemsKeyId` and
`duplicateOf` all null (even when `duplicate_of` is present in the hash), and
the item is persisted via the repository. -/
theorem deletion_clears_item_fields (existing : Item) (hash : ItemHash)
    (session performer svId ksId : Nat) (item' : Item) (tr : List ItemAct)
    (hdel : hash.deleted = true)
    (hok : updateExistingItem existing hash (RawUuid.valid session)
      (RawUuid.valid performer) svId ksId = Except.ok (item', tr)) :
    item'.deleted = true ∧ item'.content = none ∧ item'.encItemKey = none ∧
    item'.authHash = none ∧ item'.itemsKeyId = none ∧ item'.duplicateOf = none ∧
    ItemAct.saveItem item' ∈ tr := by
  obtain ⟨ts, _, hitem, htr⟩ :=
    updateExistingItem_ok existing hash session performer svId ksId item' tr hok
  obtain ⟨k1, k2, k3, k4, k5, k6, -⟩ :=
    applyKeySystem_preserves
      (applySharedVault (applyHashFields existing hash session ts) hash existing.id
        performer svId ts) hash existing.id ksId ts
  obtain ⟨v1, v2, v3, v4, v5, v6, -⟩ :=
    applySharedVault_preserves (applyHashFields existing hash session ts) hash existing.id
      performer svId ts
  obtain ⟨d1, d2, d3, d4, d5, d6⟩ :=
    applyHashFields_deleted existing hash session ts hdel
  subst hitem
  refine ⟨?_, ?_, ?_, ?_, ?_, ?_, ?_⟩
  · rw [k1, v1, d1]
  · rw [k2, v2, d2]
  · rw [k3, v3, d3]
  · rw [k4, v4, d4]
  · rw [k5, v5, d5]
  · rw [k6, v6, d6]
  · rw [htr]
    simp [itemEvents]

/-- Witness for `deletion_clears_item_fields` on concrete data with
`duplicate_of` present in the hash. -/
theorem deletion_clears_item_fields_witness :
    itemDeleted.deleted = true ∧ itemDeleted.content = none ∧
    itemDeleted.encItemKey = none ∧ itemDeleted.authHash = none ∧
    itemDeleted.itemsKeyId = none ∧ itemDeleted.duplicateOf = none ∧
    ItemAct.saveItem itemDeleted ∈
      [ItemAct.saveItem itemDeleted, ItemAct.publishRevisionCreation 3 7,
       ItemAct.publishDuplicateSynced 3 9 7] :=
  deletion_clears_item_fields itemSample hashDeleted 2 7 100 101 itemDeleted
    [ItemAct.saveItem itemDeleted, ItemAct.publishRevisionCreation 3 7,
     ItemAct.publishDuplicateSynced 3 9 7] rfl rfl

/-- C9: on a successful update from a hash carrying a shared-vault uuid: when
the existing item has no shared-vault association or its association names a
different vault, the item ends up with a freshly created association naming
that vault; when the existing association already names the same vault, the
association is left intact, identity included. -/
theorem shared_vault_assoc_identity (existing : Item) (hash : ItemHash)
    (session performer svId ksId v : Nat) (item' : Item) (tr : List ItemAct)
    (hsv : hash.sharedVaultUuid = RawUuid.valid v)
    (hok : updateExistingItem existing hash (RawUuid.valid session)
      (RawUuid.valid performer) svId ksId = Except.ok (item', tr)) :
    ((existing.sharedVaultAssociation = none ∨
        (∃ a, existing.sharedVaultAssociation = some a ∧ a.sharedVaultUuid ≠ v)) →
      ∃ ts, item'.sharedVaultAssociation =
        some { id := svId, itemUuid := existing.id, sharedVaultUuid := v,
               lastEditedBy := performer, timestamps := ts }) ∧
    (∀ a, existing.sharedVaultAssociation = some a → a.sharedVaultUuid = v →
      item'.sharedVaultAssociation = some a) := by
  obtain ⟨ts, _, hitem, -⟩ :=
    updateExistingItem_ok existing hash session performer svId ksId item' tr hok
  obtain ⟨-, -, -, -, -, -, hkeep⟩ :=
    applyKeySystem_preserves
      (applySharedVault (applyHashFields existing hash session ts) hash existing.id
        performer svId ts) hash existing.id ksId ts
  obtain ⟨hbase, -⟩ := applyHashFields_assoc existing hash session ts
  subst hitem
  rw [hkeep]
  constructor
  · rintro (hnone | ⟨a, ha, hne⟩)
    · refine ⟨ts, ?_⟩
      simp [applySharedVault, hsv, hbase, hnone]
    · refine ⟨ts, ?_⟩
      simp [applySharedVault, hsv, hbase, ha, hne]
  · intro a ha hv
    simp [applySharedVault, hsv, hbase, ha, hv]

/-- The per-revision migration step publishes no event. -/
theorem migrateRevision_no_publish (env : Env) (p : List Revision) (r : Revision)
    (s : TStatus) (c : Nat) : Act.publish s c ∉ (migrateRevision env p r).1 := by
  unfold migrateRevision
  repeat' split
  all_goals simp

/-- The page-level migration loop publishes no event. -/
theorem migrateRevisionList_no_publish (env : Env) (rs : List Revision) :
    ∀ (p : List Revision) (s : TStatus) (c : Nat),
      Act.publish s c ∉ (migrateRevisionList env p rs).1 := by
  induction rs with
  | nil => intro p s c; simp [migrateRevisionList]
  | cons r rest ih =>
      intro p s c
      simp only [migrateRevisionList, List.mem_append]
      rintro (h | h)
      · exact migrateRevision_no_publish env p r s c h
      · exact ih _ s c h

/-- Every status published by the paging migration is an `InProgress`
keep-alive. -/
theorem migratePages_publish_inProgress (env : Env) (u totalPages : Nat) :
    ∀ (fuel page : Nat) (st : St) (s : TStatus) (c : Nat),
      Act.publish s c ∈ (migratePages env u totalPages fuel page st).1 →
      s = TStatus.inProgress := by
  intro fuel
  induction fuel with
  | zero => intro page st s c h; simp [migratePages] at h
  | succ n ih =>
      intro page st s c h
      simp only [migratePages] at h
      split at h
      · simp at h
      · simp only [List.mem_append] at h
        rcases h with ((h | h) | h) | h
        · split at h
          · simp at h
            exact h.1
          · simp at h
        · simp at h
        · exact absurd h (migrateRevisionList_no_publish env _ _ s c)
        · exact ih _ _ s c h

/-- Every status published by `migrateRevisionsForUser` is an `InProgress`
keep-alive. -/
theorem migrateRevisionsForUser_publish (env : Env) (u : Nat) (st : St)
    (s : TStatus) (c : Nat)
    (h : Act.publish s c ∈ (migrateRevisionsForUser env u st).1) :
    s = TStatus.inProgress := by
  simp only [migrateRevisionsForUser, List.mem_append] at h
  rcases h with h | h
  · simp at h
  · exact migratePages_publish_inProgress env u _ _ _ _ s c h

/-- The per-revision integrity check publishes no event. -/
theorem integrityCheckRevision_no_publish (p : List Revision) (u : Nat) (r : Revision)
    (s : TStatus) (c : Nat) : Act.publish s c ∉ (integrityCheckRevision p u r).1 := by
  unfold integrityCheckRevision
  repeat' split
  all_goals simp

/-- The page-level integrity loop publishes no event. -/
theorem integrityRevisionList_no_publish (p : List Revision) (u : Nat)
    (rs : List Revision) : ∀ (s : TStatus) (c : Nat),
      Act.publish s c ∉ (integrityRevisionList p u rs).1 := by
  induction rs with
  | nil => intro s c; simp [integrityRevisionList]
  | cons r rest ih =>
      intro s c
      simp only [integrityRevisionList]
      split
      · exact integrityCheckRevision_no_publish p u r s c
      · simp only [List.mem_append]
        rintro (h | h)
        · exact integrityCheckRevision_no_publish p u r s c h
        · exact ih s c h

/-- The integrity page loop publishes no event. -/
theorem integrityPages_no_publish (env : Env) (u totalPages : Nat) :
    ∀ (fuel page : Nat) (st : St) (s : TStatus) (c : Nat),
      Act.publish s c ∉ (integrityPages env u totalPages fuel page st).1 := by
  intro fuel
  induction fuel with
  | zero => intro page st s c; simp [integrityPages]
  | succ n ih =>
      intro page st s c
      simp only [integrityPages]
      split
      · simp only [List.mem_append]
        rintro (h | h)
        · simp at h
        · exact integrityRevisionList_no_publish _ u _ s c h
      · simp only [List.mem_append]
        rintro ((h | h) | h)
        · simp at h
        · exact integrityRevisionList_no_publish _ u _ s c h
        · exact ih _ _ s c h

/-- The integrity check publishes no event. -/
theorem checkIntegrity_no_publish (env : Env) (u : Nat) (st : St)
    (s : TStatus) (c : Nat) : Act.publish s c ∉ (checkIntegrity env u st).1 := by
  unfold checkIntegrity
  split
  · simp
  · dsimp only
    split
    · simp
    · simp only [List.mem_append]
      rintro (h | h)
      · simp at h
      · exact integrityPages_no_publish env u _ _ _ _ s c h

/-- After `removeByUserUuid`, the user has no revisions left in the store. -/
theorem countByUserUuid_removeByUserUuid (s : List Revision) (u : Nat) :
    countByUserUuid (removeByUserUuid s u) u = 0 := by
  unfold countByUserUuid removeByUserUuid
  rw [List.filter_filter, List.length_eq_zero]
  apply List.filter_eq_nil_iff.mpr
  intro r _
  by_cases h : r.userUuid = u <;> simp [h]

/-- A status is in `pubs t` exactly when `t` publishes it with some count. -/
theorem mem_pubs {s : TStatus} {t : List Act} :
    s ∈ pubs t ↔ ∃ c, Act.publish s c ∈ t := by
  constructor
  · intro h
    simp only [pubs, List.mem_filterMap] at h
    obtain ⟨a, ha, hs⟩ := h
    cases a <;> simp at hs
    subst hs
    exact ⟨_, ha⟩
  · rintro ⟨c, hc⟩
    simp only [pubs, List.mem_filterMap]
    exact ⟨Act.publish s c, hc, rfl⟩

/-- `pubs` distributes over concatenation. -/
theorem pubs_append (a b : List Act) : pubs (a ++ b) = pubs a ++ pubs b :=
  List.filterMap_append a b _

/-- A trace without publishes has an empty status sequence. -/
theorem pubs_eq_nil {t : List Act} (h : ∀ (s : TStatus) (c : Nat), Act.publish s c ∉ t) :
    pubs t = [] := by
  rw [List.eq_nil_iff_forall_not_mem]
  intro s hs
  obtain ⟨c, hc⟩ := mem_pubs.mp hs
  exact h s c hc

/-- Prepending `InProgress` statuses keeps well-formedness unchanged. -/
theorem eventsWellFormed_append {l : List TStatus}
    (h : ∀ x ∈ l, x = TStatus.inProgress) (m : List TStatus) :
    eventsWellFormed (l ++ m) = eventsWellFormed m := by
  induction l with
  | nil => rfl
  | cons a as ih =>
      have ha : a = TStatus.inProgress := h a (by simp)
      subst ha
      rw [List.cons_append]
      show eventsWellFormed (TStatus.inProgress :: (as ++ m)) = eventsWellFormed m
      rw [eventsWellFormed, if_pos rfl]
      exact ih (fun x hx => h x (by simp [hx]))

/-- A single terminal status is a well-formed sequence. -/
theorem eventsWellFormed_single (t : TStatus) : eventsWellFormed [t] = true := by
  cases t <;> rfl

/-- C6: whenever the integrity check fails, `execute` sets `pagingProgress`
to 1 and then `integrityProgress` to 1, both writes precede the `Failed`
publish in the trace, both counters are 1 in the final state, and the result
is a failure carrying the integrity error. -/
theorem integrity_failure_resets_progress (env : Env) (u : Nat) (st : St)
    (h1 : env.secondaryRepoSet = true) (h2 : env.statusRepoSet = true)
    (h3 : env.uuidValid = true) (h0 : countByUserUuid st.secondary u ≠ 0)
    (mActs : List Act) (st1 : St)
    (hm : migrateRevisionsForUser env u st = (mActs, st1, UResult.ok))
    (iActs : List Act) (st2 : St) (e : String)
    (hi : checkIntegrity env u st1 = (iActs, st2, some e)) :
    executeTransition env u st =
      ([Act.countSecondary (countByUserUuid st.secondary u),
        Act.publish TStatus.inProgress (countByUserUuid st.secondary u)] ++ mActs ++
        [Act.sleep 2000] ++ iActs ++
        [Act.setPagingProgress 1, Act.setIntegrityProgress 1,
         Act.publish TStatus.failed (countByUserUuid st2.secondary u)],
       { st2 with pagingProgress := 1, integrityProgress := 1 },
       UResult.fail e) := by
  simp [executeTransition, h1, h2, h3, isAlreadyMigrated, h0, hm, hi]

/-- Witness for `integrity_failure_resets_progress`: with every insert
reporting `didSave = false`, migration succeeds but the count comparison of
the integrity check fails, both progress counters are reset to 1 before the
`Failed` publish, and the failure carries the integrity error. -/
theorem integrity_failure_resets_progress_witness :
    executeTransition envInsertFail 7 stOne =
      ([Act.countSecondary 1, Act.publish TStatus.inProgress 1] ++
        [Act.getPagingProgress 1, Act.countSecondary 1, Act.publish TStatus.inProgress 1,
         Act.setPagingProgress 1, Act.findSecondaryPage 0 1, Act.findPrimary 1 7,
         Act.insertPrimary 1 false] ++
        [Act.sleep 2000] ++
        [Act.getIntegrityProgress 1, Act.countSecondary 1, Act.countPrimary 0] ++
        [Act.setPagingProgress 1, Act.setIntegrityProgress 1,
         Act.publish TStatus.failed 1],
       { primary := [], secondary := [rev1], pagingProgress := 1, integrityProgress := 1 },
       UResult.fail
         ("Total revisions count for user 7 in primary database (0) does not match total revisions count in secondary database (1)")) :=
  integrity_failure_resets_progress envInsertFail 7 stOne rfl rfl rfl (by decide)
    [Act.getPagingProgress 1, Act.countSecondary 1, Act.publish TStatus.inProgress 1,
     Act.setPagingProgress 1, Act.findSecondaryPage 0 1, Act.findPrimary 1 7,
     Act.insertPrimary 1 false]
    stOne rfl
    [Act.getIntegrityProgress 1, Act.countSecondary 1, Act.countPrimary 0]
    stOne
    "Total revisions count for user 7 in primary database (0) does not match total revisions count in secondary database (1)"
    rfl

/-- C1 counterexample: when the secondary-store cleanup call fails, `execute`
still publishes `Verified` while the user's revision count in the secondary
store is 1, not 0 (one revision, page size 1, cleanup raising). -/
theorem verified_with_nonzero_secondary_counterexample :
    Act.publish TStatus.verified 1 ∈ (executeTransition envCleanupFail 7 stOne).1 ∧
    (1 : Nat) ≠ 0 := by
  decide

/-- `pubs` of the literal two-action chunks appearing in `execute`. -/
theorem pubs_count_publish (n m : Nat) (s : TStatus) :
    pubs [Act.countSecondary n, Act.publish s m] = [s] := rfl

/-- `pubs` of a lone publish. -/
theorem pubs_publish_single (m : Nat) (s : TStatus) :
    pubs [Act.publish s m] = [s] := rfl

/-- `pubs` of the sleep chunk. -/
theorem pubs_sleep_chunk : pubs [Act.sleep 2000] = [] := rfl

/-- `pubs` of the progress-reset chunk ending in a publish. -/
theorem pubs_progress_publish (a b m : Nat) (s : TStatus) :
    pubs [Act.setPagingProgress a, Act.setIntegrityProgress b, Act.publish s m] = [s] := rfl

/-- `pubs` of the cleanup chunk ending in a publish. -/
theorem pubs_remove_publish (u m : Nat) (s : TStatus) :
    pubs [Act.removeSecondaryForUser u, Act.publish s m] = [s] := rfl

/-- An `InProgress` publish, then a run of `InProgress`, then one terminal
status is well-formed. -/
theorem eventsWellFormed_run (l : List TStatus) (t : TStatus)
    (hl : ∀ x ∈ l, x = TStatus.inProgress) :
    eventsWellFormed (TStatus.inProgress :: (l ++ [t])) = true := by
  have h1 : eventsWellFormed (TStatus.inProgress :: (l ++ [t])) =
      eventsWellFormed (l ++ [t]) := by
    simp [eventsWellFormed]
  rw [h1, eventsWellFormed_append hl]
  exact eventsWellFormed_single t

/-- C1 (amended): on every path of `execute` on which the cleanup step does
not fail, a `Verified` status is published only with secondary count 0;
when the cleanup step fails, `execute` publishes `Failed` and then `Verified`
with the still-nonzero count. -/
theorem verified_implies_secondary_empty (env : Env) (u : Nat) (st : St)
    (hclean : env.cleanupThrows = false) :
    ∀ c, Act.publish TStatus.verified c ∈ (executeTransition env u st).1 → c = 0 := by
  intro c hc
  simp only [executeTransition] at hc
  split at hc
  · simp at hc
  · split at hc
    · simp at hc
    · split at hc
      · simp at hc
      · split at hc
        · next hmig =>
            have h0 : countByUserUuid st.secondary u = 0 := by
              simpa [isAlreadyMigrated] using hmig
            simp [h0] at hc
            exact hc
        · split at hc
          · next mActs st1 e heq =>
              simp only [List.mem_append] at hc
              rcases hc with (hc | hc) | hc
              · simp at hc
              · have hm : Act.publish TStatus.verified c ∈
                    (migrateRevisionsForUser env u st).1 := by
                  rw [heq]; exact hc
                exact absurd (migrateRevisionsForUser_publish env u st _ c hm) (by simp)
              · simp at hc
          · next mActs st1 heq =>
              split at hc
              · simp only [List.mem_append] at hc
                rcases hc with (((hc | hc) | hc) | hc) | hc
                · simp at hc
                · have hm : Act.publish TStatus.verified c ∈
                      (migrateRevisionsForUser env u st).1 := by
                    rw [heq]; exact hc
                  exact absurd (migrateRevisionsForUser_publish env u st _ c hm) (by simp)
                · simp at hc
                · exact absurd hc (checkIntegrity_no_publish env u st1 _ c)
                · simp at hc
              · split at hc
                · next hthrow =>
                    rw [hclean] at hthrow
                    simp at hthrow
                · simp only [List.mem_append] at hc
                  rcases hc with (((hc | hc) | hc) | hc) | hc
                  · simp at hc
                  · have hm : Act.publish TStatus.verified c ∈
                        (migrateRevisionsForUser env u st).1 := by
                      rw [heq]; exact hc
                    exact absurd (migrateRevisionsForUser_publish env u st _ c hm) (by simp)
                  · simp at hc
                  · exact absurd hc (checkIntegrity_no_publish env u st1 _ c)
                  · simp at hc
                    rw [hc, countByUserUuid_removeByUserUuid]

/-- Witness for `verified_implies_secondary_empty`: the fault-free single
revision run publishes its `Verified` with secondary count 0. -/
theorem verified_implies_secondary_empty_witness :
    Act.publish TStatus.verified 0 ∈ (executeTransition envOk 7 stOne).1 ∧
    ((0 : Nat) = 0) :=
  ⟨by decide, verified_implies_secondary_empty envOk 7 stOne rfl 0 (by decide)⟩

/-- C2 counterexample: on the cleanup-failure path, one `execute` call
publishes both a `Failed` and a `Verified` event, so the published sequence is
not an `InProgress` run followed by a single terminal status. -/
theorem both_terminal_statuses_counterexample :
    TStatus.failed ∈ pubs (executeTransition envCleanupFail 7 stOne).1 ∧
    TStatus.verified ∈ pubs (executeTransition envCleanupFail 7 stOne).1 ∧
    eventsWellFormed (pubs (executeTransition envCleanupFail 7 stOne).1) = false := by
  decide

/-- C2 (amended): on every path of `execute` on which the cleanup step does
not fail, the published statuses form a run of zero or more `InProgress`
events followed by at most one terminal (`Verified` or `Failed`) event;
the short-circuit path publishes a single `Verified` with no preceding
`InProgress`, and when the cleanup step fails a `Failed` is followed by a
trailing `Verified`. -/
theorem status_publish_order (env : Env) (u : Nat) (st : St)
    (hclean : env.cleanupThrows = false) :
    eventsWellFormed (pubs (executeTransition env u st).1) = true := by
  simp only [executeTransition]
  split
  · rfl
  · split
    · rfl
    · split
      · rfl
      · split
        · rw [pubs_count_publish]
          exact eventsWellFormed_single _
        · split
          · next mActs st1 e heq =>
              have hM : ∀ x ∈ pubs mActs, x = TStatus.inProgress := by
                intro x hx
                obtain ⟨d, hd⟩ := mem_pubs.mp hx
                refine migrateRevisionsForUser_publish env u st x d ?_
                rw [heq]; exact hd
              rw [pubs_append, pubs_append, pubs_count_publish, pubs_publish_single,
                List.singleton_append, List.cons_append]
              exact eventsWellFormed_run _ _ hM
          · next mActs st1 heq =>
              have hM : ∀ x ∈ pubs mActs, x = TStatus.inProgress := by
                intro x hx
                obtain ⟨d, hd⟩ := mem_pubs.mp hx
                refine migrateRevisionsForUser_publish env u st x d ?_
                rw [heq]; exact hd
              have hI : pubs (checkIntegrity env u st1).1 = [] :=
                pubs_eq_nil (fun s c => checkIntegrity_no_publish env u st1 s c)
              split
              · rw [pubs_append, pubs_append, pubs_append, pubs_append,
                  pubs_count_publish, pubs_sleep_chunk, pubs_progress_publish, hI,
                  List.append_nil, List.append_nil, List.singleton_append,
                  List.cons_append]
                exact eventsWellFormed_run _ _ hM
              · split
                · next hthrow =>
                    rw [hclean] at hthrow
                    simp at hthrow
                · rw [pubs_append, pubs_append, pubs_append, pubs_append,
                    pubs_count_publish, pubs_sleep_chunk, pubs_remove_publish, hI,
                    List.append_nil, List.append_nil, List.singleton_append,
                    List.cons_append]
                  exact eventsWellFormed_run _ _ hM

/-- Witness for `status_publish_order`: the fault-free single revision run
has well-formed published statuses. -/
theorem status_publish_order_witness :
    eventsWellFormed (pubs (executeTransition envOk 7 stOne).1) = true :=
  status_publish_order envOk 7 stOne rfl

/-- Witness for `shared_vault_assoc_identity`: an existing association with
the same vault is preserved along with its identity (id 50). -/
theorem shared_vault_assoc_identity_witness :
    itemVaultKept.sharedVaultAssociation = some assocExisting :=
  (shared_vault_assoc_identity itemWithVault hashVault 2 7 100 101 4 itemVaultKept
    [ItemAct.saveItem itemVaultKept, ItemAct.publishRevisionCreation 3 7] rfl rfl).2
    assocExisting rfl rfl

end SN
